import Mathlib

/-!
Shallow embedding of the multi-agent tactical simulation
(`nidanidewodawode.py`): agents on a bounded 2D arena choose a stance
from a threat ratio, move with bounded random perturbation, decay power,
and a population-wide equilibrium correction tops power up.

Modelling conventions:

* Machine floats are modelled as exact rationals (ℚ).
* The process-global numpy random state is modelled as an explicit
  stream of unit-interval draws `RNG` threaded through every function in
  the exact order the Python code consumes draws; `np.random.uniform(lo,
  hi)` maps a raw draw `u` to `lo + (hi - lo) * u`, `np.random.rand`
  uses a raw draw directly, and `np.random.choice(['active','passive'])`
  consumes one raw draw.
* `np.linalg.norm` (a real square root, irrational in general) is
  modelled by an abstract parameter `sq : ℚ → ℚ` applied to the squared
  length; theorems that need it assume only that `sq` vanishes exactly
  on zero, which the real square root satisfies.  The radius comparison
  in `detect_in_radius` is encoded by the equivalent squared comparison
  `dist² < radius²` (exact for the nonnegative radius 3.0 used).
* The in-place `for agent in self.agents` loop of `time_step` is
  embedded as a zipper (`agent_phase`): already-updated agents, then the
  current agent, then not-yet-updated agents, reproducing the source's
  sequential mutation order exactly.
-/

namespace BattleSim

/-- 2D vectors / positions, componentwise exact rationals. -/
abbrev Vec : Type := ℚ × ℚ

/-- Explicit random source: a stream of raw draws plus a cursor.  The
Python code draws from the process-global numpy state; raw draws are
intended to lie in `[0, 1]`. -/
structure RNG where
  stream : ℕ → ℚ
  idx : ℕ

/-- Consume one raw draw. -/
def RNG.next (r : RNG) : ℚ × RNG :=
  (r.stream r.idx, ⟨r.stream, r.idx + 1⟩)

/-- `np.random.uniform(lo, hi)`: one raw draw mapped affinely into
`[lo, hi]`. -/
def RNG.uniform (lo hi : ℚ) (r : RNG) : ℚ × RNG :=
  let u := RNG.next r
  (lo + (hi - lo) * u.1, u.2)

/-- `np.random.uniform(lo, hi, 2)`: two sequential draws. -/
def RNG.uniform2 (lo hi : ℚ) (r : RNG) : Vec × RNG :=
  let u1 := RNG.uniform lo hi r
  let u2 := RNG.uniform lo hi u1.2
  ((u1.1, u2.1), u2.2)

/-- The three stances of `StrategicAgent.status`. -/
inductive Status where
  | attack
  | maneuver
  | retreat
  deriving DecidableEq

/-- `chaos_factor = 0.3` (module-level constant in the source). -/
def chaos_factor : ℚ := 0.3

/-- Embeds the `StrategicAgent` object state. -/
structure StrategicAgent where
  agent_id : ℕ
  power : ℚ
  position : Vec
  strategy_type : String
  status : Status
  vector : Vec
  deriving DecidableEq

/-- `StrategicAgent.__init__`: power `np.random.uniform(0.5, 1.5)`,
position `np.random.rand(2) * 10`, status `'maneuver'`, vector zero. -/
def StrategicAgent.init (strategy_type : String) (agent_id : ℕ) (r : RNG) :
    StrategicAgent × RNG :=
  let p := RNG.uniform 0.5 1.5 r
  let u1 := RNG.next p.2
  let u2 := RNG.next u1.2
  (⟨agent_id, p.1, (u1.1 * 10, u2.1 * 10), strategy_type, Status.maneuver,
    (0, 0)⟩, u2.2)

/-- `norm = np.linalg.norm(direction); if norm == 0: norm = 1` — the
shared degenerate-norm guard of all three vector policies.  `sq` stands
for the square root applied to the squared length. -/
def safe_norm (sq : ℚ → ℚ) (d : Vec) : ℚ :=
  let n := sq (d.1 ^ 2 + d.2 ^ 2)
  if n = 0 then 1 else n

/-- Python `min(opponents, key=lambda op: op.power)`: first element of
minimal power. -/
def minByPower : StrategicAgent → List StrategicAgent → StrategicAgent
  | best, [] => best
  | best, o :: rest => minByPower (if o.power < best.power then o else best) rest

/-- `StrategicAgent.generate_defensive_pattern`. -/
def generate_defensive_pattern (sq : ℚ → ℚ) (_self : StrategicAgent) (r : RNG) :
    Vec × RNG :=
  let direction := RNG.uniform2 (-1) 1 r
  let norm := safe_norm sq direction.1
  let random_jitter := RNG.uniform2 (-(chaos_factor / 2)) (chaos_factor / 2) direction.2
  ((direction.1.1 / norm + random_jitter.1.1,
    direction.1.2 / norm + random_jitter.1.2), random_jitter.2)

/-- `StrategicAgent.calculate_best_attack_vector`. -/
def calculate_best_attack_vector (sq : ℚ → ℚ) (self : StrategicAgent)
    (opponents : List StrategicAgent) (r : RNG) : Vec × RNG :=
  match opponents with
  | [] => generate_defensive_pattern sq self r
  | o :: rest =>
    let weakest := minByPower o rest
    let direction : Vec := (weakest.position.1 - self.position.1,
      weakest.position.2 - self.position.2)
    let norm := safe_norm sq direction
    let random_jitter := RNG.uniform2 (-chaos_factor) chaos_factor r
    ((direction.1 / norm + random_jitter.1.1,
      direction.2 / norm + random_jitter.1.2), random_jitter.2)

/-- `StrategicAgent.find_safest_escape_route`. -/
def find_safest_escape_route (sq : ℚ → ℚ) (self : StrategicAgent)
    (opponents : List StrategicAgent) (r : RNG) : Vec × RNG :=
  match opponents with
  | [] => generate_defensive_pattern sq self r
  | o :: rest =>
    let n : ℚ := (o :: rest).length
    let threat_center : Vec :=
      (((o :: rest).map (fun op => op.position.1)).sum / n,
       ((o :: rest).map (fun op => op.position.2)).sum / n)
    let direction : Vec := (self.position.1 - threat_center.1,
      self.position.2 - threat_center.2)
    let norm := safe_norm sq direction
    let random_jitter := RNG.uniform2 (-chaos_factor) chaos_factor r
    ((direction.1 / norm + random_jitter.1.1,
      direction.2 / norm + random_jitter.1.2), random_jitter.2)

/-- `StrategicAgent.decide`: status and vector from the threat level and
the aggression threshold `τ` (the global `aggression_threshold`).
Returns the updated agent (the Python method mutates `self`). -/
def StrategicAgent.decide (sq : ℚ → ℚ) (τ : ℚ) (self : StrategicAgent)
    (opponents : List StrategicAgent) (r : RNG) : StrategicAgent × RNG :=
  match opponents with
  | [] =>
    let v := generate_defensive_pattern sq self r
    ({ self with status := Status.maneuver, vector := v.1 }, v.2)
  | o :: rest =>
    let threat_level := ((o :: rest).map (fun op => op.power)).sum / self.power
    if threat_level < 1 * τ then
      let v := calculate_best_attack_vector sq self (o :: rest) r
      ({ self with status := Status.attack, vector := v.1 }, v.2)
    else if 1 * τ ≤ threat_level ∧ threat_level ≤ 1.4 * τ then
      let v := generate_defensive_pattern sq self r
      ({ self with status := Status.maneuver, vector := v.1 }, v.2)
    else
      let v := find_safest_escape_route sq self (o :: rest) r
      ({ self with status := Status.retreat, vector := v.1 }, v.2)

/-- Embeds the `Battlefield` object state. -/
structure Battlefield where
  agents : List StrategicAgent
  time_step_count : ℕ
  deriving DecidableEq

/-- Squared Euclidean distance between two positions. -/
def sq_dist (p q : Vec) : ℚ := (p.1 - q.1) ^ 2 + (p.2 - q.2) ^ 2

/-- `Battlefield._detect_in_radius`: every other agent (excluded by id)
at Euclidean distance strictly less than `radius`; encoded by the exact
squared comparison. -/
def detect_in_radius (agents : List StrategicAgent) (agent : StrategicAgent)
    (radius : ℚ) : List StrategicAgent :=
  match agents with
  | [] => []
  | other :: rest =>
    if other.agent_id ≠ agent.agent_id ∧
        sq_dist other.position agent.position < radius ^ 2 then
      other :: detect_in_radius rest agent radius
    else
      detect_in_radius rest agent radius

/-- `np.clip(x, 0, 10)` componentwise. -/
def clip (x : ℚ) : ℚ := min (max x 0) 10

/-- `Battlefield._execute_action`: position integration with
stance-dependent speed, fresh chaotic jitter, and the hard clamp. -/
def execute_action (agent : StrategicAgent) (vector : Vec) (r : RNG) :
    StrategicAgent × RNG :=
  let speed_factor : ℚ :=
    match agent.status with
    | Status.attack => 0.35
    | Status.retreat => 0.3
    | Status.maneuver => 0.25
  let chaotic_movement := RNG.uniform2 (-0.05) 0.05 r
  ({ agent with position :=
      (clip (agent.position.1 + vector.1 * speed_factor + chaotic_movement.1.1),
       clip (agent.position.2 + vector.2 * speed_factor + chaotic_movement.1.2)) },
   chaotic_movement.2)

/-- `Battlefield._update_power_dynamics`: stance-dependent decay floored
at 0.1. -/
def update_power_dynamics (agent : StrategicAgent) : StrategicAgent :=
  let decay : ℚ :=
    match agent.status with
    | Status.attack => 0.02
    | Status.retreat => 0.015
    | Status.maneuver => 0.005
  { agent with power := max 0.1 (agent.power - decay) }

/-- `Battlefield._rebalance_strategic_equilibrium`: if total power is
below 10, every agent gains a flat 0.03. -/
def rebalance_strategic_equilibrium (agents : List StrategicAgent) :
    List StrategicAgent :=
  let total_power := (agents.map (fun a => a.power)).sum
  if total_power < 10 then
    agents.map (fun a => { a with power := a.power + 0.03 })
  else
    agents

/-- The body of the `time_step` loop for one agent with its detected
foes: `agent.decide(...)`, then `self._execute_action(agent, vector)`,
then `self._update_power_dynamics(agent)`. -/
def agent_update (sq : ℚ → ℚ) (τ : ℚ) (agent : StrategicAgent)
    (visible_foes : List StrategicAgent) (r : RNG) : StrategicAgent × RNG :=
  let dec := StrategicAgent.decide sq τ agent visible_foes r
  let executed := execute_action dec.1 dec.1.vector dec.2
  (update_power_dynamics executed.1, executed.2)

/-- The per-agent loop of `Battlefield.time_step`, as a zipper: `done`
holds the already-updated prefix, `todo` the rest; detection scans the
whole current population, so later agents see earlier agents' updates,
exactly as the in-place Python loop does. -/
def agent_phase (sq : ℚ → ℚ) (τ : ℚ) :
    List StrategicAgent → List StrategicAgent → RNG →
    List StrategicAgent × RNG
  | done, [], r => (done, r)
  | done, agent :: rest, r =>
    let visible_foes := detect_in_radius (done ++ agent :: rest) agent 3
    let u := agent_update sq τ agent visible_foes r
    agent_phase sq τ (done ++ [u.1]) rest u.2

/-- `Battlefield.time_step`: the per-agent loop, then the equilibrium
correction once, then the tick counter. -/
def time_step (sq : ℚ → ℚ) (τ : ℚ) (b : Battlefield) (r : RNG) :
    Battlefield × RNG :=
  let phase := agent_phase sq τ [] b.agents r
  (⟨rebalance_strategic_equilibrium phase.1, b.time_step_count + 1⟩, phase.2)

/-- `Battlefield._deploy_forces` loop body: ids `i, i+1, ...`; each
iteration consumes one raw draw for `np.random.choice(['active',
'passive'])` and then constructs the agent. -/
def deploy_go : ℕ → ℕ → RNG → List StrategicAgent × RNG
  | _, 0, r => ([], r)
  | i, Nat.succ fuel, r =>
    let c := RNG.next r
    let strategy := if c.1 < 1 / 2 then "active" else "passive"
    let born := StrategicAgent.init strategy i c.2
    let rest := deploy_go (i + 1) fuel born.2
    (born.1 :: rest.1, rest.2)

/-- `Battlefield._deploy_forces`. -/
def deploy_forces (num_agents : ℕ) (r : RNG) : List StrategicAgent × RNG :=
  deploy_go 0 num_agents r

/-- `Battlefield.__init__`: deploy the requested number of agents and
zero the tick counter.  The source performs no validation of
`num_agents`; the constructor is total. -/
def Battlefield.init (num_agents : ℕ) (r : RNG) : Battlefield × RNG :=
  let d := deploy_forces num_agents r
  (⟨d.1, 0⟩, d.2)

/-- `n` ticks from an initial battlefield, recording every intermediate
state (positions, powers, stances, vectors and tick counts are all
fields of `Battlefield`). -/
def run_simulation (sq : ℚ → ℚ) (τ : ℚ) :
    ℕ → Battlefield → RNG → List Battlefield
  | 0, b, _ => [b]
  | Nat.succ n, b, r =>
    let s := time_step sq τ b r
    b :: run_simulation sq τ n s.1 s.2

/-! ## Helper lemmas -/

/-- The status chosen by `decide` on a non-empty rival list is the
three-way conditional on the threat level. -/
theorem decide_cons_status (sq : ℚ → ℚ) (τ : ℚ) (a o : StrategicAgent)
    (rest : List StrategicAgent) (r : RNG) :
    (StrategicAgent.decide sq τ a (o :: rest) r).1.status =
      (if ((o :: rest).map (fun op => op.power)).sum / a.power < 1 * τ then
        Status.attack
      else if 1 * τ ≤ ((o :: rest).map (fun op => op.power)).sum / a.power ∧
          ((o :: rest).map (fun op => op.power)).sum / a.power ≤ 1.4 * τ then
        Status.maneuver
      else Status.retreat) := by
  simp only [StrategicAgent.decide]
  split_ifs <;> rfl

/-- `decide` never changes the agent's power. -/
theorem decide_power (sq : ℚ → ℚ) (τ : ℚ) (a : StrategicAgent)
    (opponents : List StrategicAgent) (r : RNG) :
    (StrategicAgent.decide sq τ a opponents r).1.power = a.power := by
  cases opponents with
  | nil => rfl
  | cons o rest =>
    simp only [StrategicAgent.decide]
    split_ifs <;> rfl

/-! ## C5: empty-rival fallback -/

/-- C5: with no visible rivals, `decide` forces stance MANEUVER and the
defensive-pattern vector, for every power, position, threshold and
random state. -/
theorem decide_empty_rivals (sq : ℚ → ℚ) (τ : ℚ) (a : StrategicAgent) (r : RNG) :
    (StrategicAgent.decide sq τ a [] r).1.status = Status.maneuver ∧
    (StrategicAgent.decide sq τ a [] r).1.vector =
      (generate_defensive_pattern sq a r).1 :=
  ⟨rfl, rfl⟩

/-! ## C6: zero-agent construction -/

/-- C6 (code behavior): constructing a `Battlefield` with
`num_agents = 0` does not fail; it silently returns a battlefield with
an empty agent list and tick count 0, consuming no random draws.  The
source constructor has no validation or error path at all. -/
theorem zero_agents_constructs_silently (r : RNG) :
    (Battlefield.init 0 r).1 = ⟨[], 0⟩ ∧ (Battlefield.init 0 r).2 = r :=
  ⟨rfl, rfl⟩

/-! ## C2: the three-band threat mapping -/

/-- C2: for a non-empty rival list and a nonnegative threshold `τ` (the
spec constrains the aggression threshold to `[0.5, 2.0]`), the stance is
the three-band function of the threat level, with both boundary values
belonging to the MANEUVER band. -/
theorem decide_threat_bands (sq : ℚ → ℚ) (τ : ℚ) (a o : StrategicAgent)
    (rest : List StrategicAgent) (r : RNG) (hτ : 0 ≤ τ) :
    (((o :: rest).map (fun op => op.power)).sum / a.power < τ →
      (StrategicAgent.decide sq τ a (o :: rest) r).1.status = Status.attack) ∧
    (τ ≤ ((o :: rest).map (fun op => op.power)).sum / a.power ∧
        ((o :: rest).map (fun op => op.power)).sum / a.power ≤ 1.4 * τ →
      (StrategicAgent.decide sq τ a (o :: rest) r).1.status = Status.maneuver) ∧
    (1.4 * τ < ((o :: rest).map (fun op => op.power)).sum / a.power →
      (StrategicAgent.decide sq τ a (o :: rest) r).1.status = Status.retreat) := by
  rw [decide_cons_status]
  set t := ((o :: rest).map (fun op => op.power)).sum / a.power with ht
  refine ⟨fun h => ?_, fun h => ?_, fun h => ?_⟩
  · rw [if_pos (by rw [one_mul]; exact h)]
  · rw [if_neg (by rw [one_mul]; exact not_lt.mpr h.1),
      if_pos (by rw [one_mul]; exact h)]
  · have hτt : τ ≤ 1.4 * τ := by linarith
    rw [if_neg (by rw [one_mul]; exact not_lt.mpr (le_trans hτt h.le)),
      if_neg (fun hc => absurd h (not_lt.mpr hc.2))]

/-! ## C3: power decay per tick -/

/-- The power after the full per-agent update is the pre-tick power
minus the decay selected by the decided stance, floored at 0.1. -/
theorem agent_update_power_eq (sq : ℚ → ℚ) (τ : ℚ) (a : StrategicAgent)
    (foes : List StrategicAgent) (r : RNG) :
    (agent_update sq τ a foes r).1.power =
      max 0.1 (a.power -
        (match (StrategicAgent.decide sq τ a foes r).1.status with
          | Status.attack => (0.02 : ℚ)
          | Status.retreat => 0.015
          | Status.maneuver => 0.005)) := by
  have h : (agent_update sq τ a foes r).1.power =
      max 0.1 ((StrategicAgent.decide sq τ a foes r).1.power -
        (match (StrategicAgent.decide sq τ a foes r).1.status with
          | Status.attack => (0.02 : ℚ)
          | Status.retreat => 0.015
          | Status.maneuver => 0.005)) := rfl
  rw [h, decide_power]

/-- C3: absent the equilibrium correction, power after the per-agent
phase equals `max 0.1 (pre-tick power − decay)` with the decay fixed by
the stance decided that tick (ATTACK 0.02, RETREAT 0.015, MANEUVER
0.005); hence, given the power-floor invariant, power never increases in
the per-agent phase. -/
theorem power_decay_per_tick (sq : ℚ → ℚ) (τ : ℚ) (a : StrategicAgent)
    (foes : List StrategicAgent) (r : RNG) :
    ((StrategicAgent.decide sq τ a foes r).1.status = Status.attack →
      (agent_update sq τ a foes r).1.power = max 0.1 (a.power - 0.02)) ∧
    ((StrategicAgent.decide sq τ a foes r).1.status = Status.retreat →
      (agent_update sq τ a foes r).1.power = max 0.1 (a.power - 0.015)) ∧
    ((StrategicAgent.decide sq τ a foes r).1.status = Status.maneuver →
      (agent_update sq τ a foes r).1.power = max 0.1 (a.power - 0.005)) ∧
    (0.1 ≤ a.power → (agent_update sq τ a foes r).1.power ≤ a.power) := by
  refine ⟨fun h => ?_, fun h => ?_, fun h => ?_, fun h => ?_⟩
  · rw [agent_update_power_eq, h]
  · rw [agent_update_power_eq, h]
  · rw [agent_update_power_eq, h]
  · cases hs : (StrategicAgent.decide sq τ a foes r).1.status <;>
      (rw [agent_update_power_eq, hs]
       exact max_le h (sub_le_self _ (by norm_num)))

/-! ## C4: equilibrium correction -/

/-- C4: the correction step adds exactly 0.03 to every agent's power
when the already-decayed total is strictly below 10, changes nothing
otherwise, and `time_step` applies it exactly once, after the whole
per-agent loop. -/
theorem equilibrium_correction (agents : List StrategicAgent) :
    (((agents.map (fun a => a.power)).sum < 10 →
      (rebalance_strategic_equilibrium agents).map (fun a => a.power) =
        agents.map (fun a => a.power + 0.03))) ∧
    ((10 : ℚ) ≤ (agents.map (fun a => a.power)).sum →
      rebalance_strategic_equilibrium agents = agents) ∧
    (∀ (sq : ℚ → ℚ) (τ : ℚ) (b : Battlefield) (r : RNG),
      (time_step sq τ b r).1.agents =
        rebalance_strategic_equilibrium (agent_phase sq τ [] b.agents r).1) := by
  refine ⟨fun h => ?_, fun h => ?_, fun sq τ b r => rfl⟩
  · rw [rebalance_strategic_equilibrium, if_pos h, List.map_map]
    rfl
  · rw [rebalance_strategic_equilibrium, if_neg (not_lt.mpr h)]

/-! ## Concrete states for witnesses -/

/-- A trivial square-root stand-in (vanishes everywhere). -/
def sq0 : ℚ → ℚ := fun _ => 0

/-- The identity as a square-root stand-in; it vanishes exactly at 0. -/
def sqId : ℚ → ℚ := fun q => q

/-- A concrete random source: all raw draws are 0. -/
def rng0 : RNG := ⟨fun _ => 0, 0⟩

/-- A second, separately defined random source with the same draws. -/
def rng1 : RNG := ⟨fun _ => 0, 0⟩

/-- A concrete agent at the origin with power 1. -/
def agA : StrategicAgent := ⟨0, 1, (0, 0), "active", Status.maneuver, (0, 0)⟩

/-- A concrete agent at (3, 0) with power 0.4. -/
def agB : StrategicAgent := ⟨1, 0.4, (3, 0), "passive", Status.maneuver, (0, 0)⟩

/-- A concrete one-agent battlefield. -/
def bf0 : Battlefield := ⟨[agA], 0⟩

/-! ## C7: degenerate-norm guard in the vector policies -/

/-- C7: for any square root `sq` vanishing exactly on 0, the shared
normalization denominator `safe_norm` is never zero; at a zero-length
pre-jitter direction it is substituted with 1; and in each of the three
policies a zero-length direction makes the returned vector exactly the
jitter (the zero vector is used as the base direction). -/
theorem vector_policies_degenerate_norm (sq : ℚ → ℚ)
    (hsq : ∀ q : ℚ, 0 ≤ q → (sq q = 0 ↔ q = 0)) :
    (∀ d : Vec, safe_norm sq d ≠ 0) ∧
    (∀ d : Vec, d.1 ^ 2 + d.2 ^ 2 = 0 → safe_norm sq d = 1) ∧
    (∀ (a o : StrategicAgent) (rest : List StrategicAgent) (r : RNG),
      (minByPower o rest).position = a.position →
      (calculate_best_attack_vector sq a (o :: rest) r).1 =
        (RNG.uniform2 (-chaos_factor) chaos_factor r).1) ∧
    (∀ (a : StrategicAgent) (r : RNG),
      (RNG.uniform2 (-1) 1 r).1 = (0, 0) →
      (generate_defensive_pattern sq a r).1 =
        (RNG.uniform2 (-(chaos_factor / 2)) (chaos_factor / 2)
          (RNG.uniform2 (-1) 1 r).2).1) ∧
    (∀ (a o : StrategicAgent) (rest : List StrategicAgent) (r : RNG),
      Prod.mk (((o :: rest).map (fun op => op.position.1)).sum /
          ((o :: rest).length : ℚ))
        (((o :: rest).map (fun op => op.position.2)).sum /
          ((o :: rest).length : ℚ)) = a.position →
      (find_safest_escape_route sq a (o :: rest) r).1 =
        (RNG.uniform2 (-chaos_factor) chaos_factor r).1) := by
  refine ⟨fun d => ?_, fun d hd => ?_, fun a o rest r hpos => ?_,
    fun a r h0 => ?_, fun a o rest r hctr => ?_⟩
  · rw [safe_norm]
    split_ifs with h
    · exact one_ne_zero
    · exact h
  · rw [safe_norm, hd, if_pos ((hsq 0 le_rfl).mpr rfl)]
  · have h1 : (minByPower o rest).position.1 - a.position.1 = 0 := by
      rw [hpos, sub_self]
    have h2 : (minByPower o rest).position.2 - a.position.2 = 0 := by
      rw [hpos, sub_self]
    simp only [calculate_best_attack_vector, h1, h2, zero_div, zero_add]
  · simp only [generate_defensive_pattern, h0, zero_div, zero_add]
  · have h1 : a.position.1 -
        ((o :: rest).map (fun op => op.position.1)).sum /
          ((o :: rest).length : ℚ) = 0 := by
      have hc := congrArg Prod.fst hctr
      simp only at hc
      rw [← hc, sub_self]
    have h2 : a.position.2 -
        ((o :: rest).map (fun op => op.position.2)).sum /
          ((o :: rest).length : ℚ) = 0 := by
      have hc := congrArg Prod.snd hctr
      simp only at hc
      rw [← hc, sub_self]
    simp only [find_safest_escape_route, h1, h2, zero_div, zero_add]

/-! ## C8: rival detection -/

/-- Membership in the detection result, for any radius, is exactly:
member of the population, different id, and squared distance below the
squared radius. -/
theorem mem_detect_in_radius (agents : List StrategicAgent)
    (a o : StrategicAgent) (radius : ℚ) :
    o ∈ detect_in_radius agents a radius ↔
      o ∈ agents ∧ o.agent_id ≠ a.agent_id ∧
        sq_dist o.position a.position < radius ^ 2 := by
  induction agents with
  | nil => simp [detect_in_radius]
  | cons x xs ih =>
    simp only [detect_in_radius]
    split_ifs with hx
    · simp only [List.mem_cons, ih]
      constructor
      · rintro (rfl | ⟨hm, hid, hd⟩)
        · exact ⟨Or.inl rfl, hx.1, hx.2⟩
        · exact ⟨Or.inr hm, hid, hd⟩
      · rintro ⟨rfl | hm, hid, hd⟩
        · exact Or.inl rfl
        · exact Or.inr ⟨hm, hid, hd⟩
    · rw [ih]
      constructor
      · rintro ⟨hm, hid, hd⟩
        exact ⟨List.mem_cons_of_mem _ hm, hid, hd⟩
      · rintro ⟨hm, hid, hd⟩
        rcases List.mem_cons.mp hm with rfl | hm
        · exact absurd ⟨hid, hd⟩ hx
        · exact ⟨hm, hid, hd⟩

/-- C8: the visible-rival set at radius 3.0 is exactly the set of other
agents (excluded by id) at Euclidean distance strictly below 3.0
(squared distance below 9); an agent at distance exactly 3.0 is not
visible, and an agent is never in its own rival set. -/
theorem detect_in_radius_spec (agents : List StrategicAgent)
    (a o : StrategicAgent) :
    (o ∈ detect_in_radius agents a 3 ↔
      o ∈ agents ∧ o.agent_id ≠ a.agent_id ∧
        sq_dist o.position a.position < 9) ∧
    a ∉ detect_in_radius agents a 3 ∧
    (sq_dist o.position a.position = 9 →
      o ∉ detect_in_radius agents a 3) := by
  have h9 : (3 : ℚ) ^ 2 = 9 := by norm_num
  refine ⟨by rw [mem_detect_in_radius, h9], fun hmem => ?_, fun hd hmem => ?_⟩
  · exact ((mem_detect_in_radius agents a a 3).mp hmem).2.1 rfl
  · have hlt := ((mem_detect_in_radius agents a o 3).mp hmem).2.2
    rw [h9, hd] at hlt
    exact lt_irrefl _ hlt

/-! ## C1: per-tick invariants -/

/-- The invariant every agent satisfies after a tick: power floored at
0.1 and position clamped into the arena. -/
abbrev tick_invariant (a : StrategicAgent) : Prop :=
  0.1 ≤ a.power ∧ 0 ≤ a.position.1 ∧ a.position.1 ≤ 10 ∧
    0 ≤ a.position.2 ∧ a.position.2 ≤ 10

/-- The hard clamp lands in `[0, 10]`. -/
theorem clip_nonneg (x : ℚ) : 0 ≤ clip x :=
  le_min (le_max_right x 0) (by norm_num)

/-- The hard clamp lands in `[0, 10]`. -/
theorem clip_le_ten (x : ℚ) : clip x ≤ 10 :=
  min_le_right _ _

/-- One full per-agent update establishes the invariant
unconditionally: the power floor comes from the `max`, the position
bounds from the clamp. -/
theorem agent_update_invariant (sq : ℚ → ℚ) (τ : ℚ) (a : StrategicAgent)
    (foes : List StrategicAgent) (r : RNG) :
    tick_invariant (agent_update sq τ a foes r).1 := by
  refine ⟨?_, clip_nonneg _, clip_le_ten _, clip_nonneg _, clip_le_ten _⟩
  rw [agent_update_power_eq]
  exact le_max_left _ _

/-- The zipper loop preserves and extends the invariant over the
processed prefix. -/
theorem agent_phase_invariant (sq : ℚ → ℚ) (τ : ℚ) :
    ∀ (todo done : List StrategicAgent) (r : RNG),
      (∀ a ∈ done, tick_invariant a) →
      ∀ a ∈ (agent_phase sq τ done todo r).1, tick_invariant a := by
  intro todo
  induction todo with
  | nil =>
    intro done r h
    simpa [agent_phase] using h
  | cons agent rest ih =>
    intro done r h
    simp only [agent_phase]
    apply ih
    intro a ha
    rcases List.mem_append.mp ha with hd | hone
    · exact h a hd
    · rw [List.mem_singleton.mp hone]
      exact agent_update_invariant sq τ agent _ r

/-- The equilibrium correction preserves the invariant (it only ever
adds a nonnegative amount to power). -/
theorem rebalance_invariant (l : List StrategicAgent)
    (h : ∀ a ∈ l, tick_invariant a) :
    ∀ a ∈ rebalance_strategic_equilibrium l, tick_invariant a := by
  intro a ha
  simp only [rebalance_strategic_equilibrium] at ha
  split_ifs at ha with hlt
  · rcases List.mem_map.mp ha with ⟨b, hb, rfl⟩
    obtain ⟨hp, h1, h2, h3, h4⟩ := h b hb
    exact ⟨by dsimp; linarith, h1, h2, h3, h4⟩
  · exact h a ha

/-- C1: after every `time_step`, every agent has power at least 0.1 and
both position coordinates in `[0, 10]`, for every initial state,
threshold, square root and random draw sequence. -/
theorem tick_invariants (sq : ℚ → ℚ) (τ : ℚ) (b : Battlefield) (r : RNG) :
    ∀ a ∈ (time_step sq τ b r).1.agents, tick_invariant a := by
  intro a ha
  simp only [time_step] at ha
  exact rebalance_invariant _
    (agent_phase_invariant sq τ b.agents [] r (by simp)) a ha

/-! ## C9: determinism given fixed randomness -/

/-- C9: two runs of any number of ticks from identical initial states,
the same threshold, and random sources delivering the same draws from
the same cursor produce identical trajectories (each recorded
`Battlefield` holds all positions, powers, stances, vectors and the
tick count). -/
theorem run_deterministic (sq : ℚ → ℚ) (τ : ℚ) (n : ℕ) (b₁ b₂ : Battlefield)
    (r₁ r₂ : RNG) (hb : b₁ = b₂) (hs : ∀ i, r₁.stream i = r₂.stream i)
    (hi : r₁.idx = r₂.idx) :
    run_simulation sq τ n b₁ r₁ = run_simulation sq τ n b₂ r₂ := by
  subst hb
  obtain ⟨s₁, i₁⟩ := r₁
  obtain ⟨s₂, i₂⟩ := r₂
  have hss : s₁ = s₂ := funext hs
  subst hss
  have hii : i₁ = i₂ := hi
  subst hii
  rfl

/-! ## C10: initial state -/

/-- What `StrategicAgent.__init__` guarantees for agent number `i`,
given unit-interval draws. -/
abbrev initial_agent_spec (a : StrategicAgent) (i : ℕ) : Prop :=
  a.agent_id = i ∧ 0.5 ≤ a.power ∧ a.power ≤ 1.5 ∧
    0 ≤ a.position.1 ∧ a.position.1 ≤ 10 ∧
    0 ≤ a.position.2 ∧ a.position.2 ≤ 10 ∧
    a.status = Status.maneuver ∧ a.vector = (0, 0)

/-- A freshly constructed agent satisfies the initial-state spec, and
construction only advances the draw cursor. -/
theorem init_agent_spec (st : String) (i : ℕ) (r : RNG)
    (hr : ∀ j, 0 ≤ r.stream j ∧ r.stream j ≤ 1) :
    initial_agent_spec (StrategicAgent.init st i r).1 i ∧
    (StrategicAgent.init st i r).2.stream = r.stream := by
  obtain ⟨hp0, hp1⟩ := hr r.idx
  obtain ⟨hx0, hx1⟩ := hr (r.idx + 1)
  obtain ⟨hy0, hy1⟩ := hr (r.idx + 2)
  refine ⟨⟨rfl, ?_, ?_, ?_, ?_, ?_, ?_, rfl, rfl⟩, rfl⟩
  · show (0.5 : ℚ) ≤ 0.5 + (1.5 - 0.5) * r.stream r.idx
    linarith
  · show (0.5 : ℚ) + (1.5 - 0.5) * r.stream r.idx ≤ 1.5
    linarith
  · show (0 : ℚ) ≤ r.stream (r.idx + 1) * 10
    linarith
  · show r.stream (r.idx + 1) * 10 ≤ 10
    linarith
  · show (0 : ℚ) ≤ r.stream (r.idx + 2) * 10
    linarith
  · show r.stream (r.idx + 2) * 10 ≤ 10
    linarith

/-- The deployment loop produces `fuel` agents with consecutive ids
starting at `i`, all satisfying the initial-state spec, and only
advances the draw cursor. -/
theorem deploy_go_spec : ∀ (fuel i : ℕ) (r : RNG),
    (∀ j, 0 ≤ r.stream j ∧ r.stream j ≤ 1) →
    (deploy_go i fuel r).1.length = fuel ∧
    (deploy_go i fuel r).2.stream = r.stream ∧
    ∀ k (hk : k < (deploy_go i fuel r).1.length),
      initial_agent_spec ((deploy_go i fuel r).1.get ⟨k, hk⟩) (i + k) := by
  intro fuel
  induction fuel with
  | zero =>
    intro i r hr
    exact ⟨rfl, rfl, fun k hk => absurd hk (by simp [deploy_go])⟩
  | succ fuel ih =>
    intro i r hr
    have hinit := init_agent_spec
      (if (RNG.next r).1 < 1 / 2 then "active" else "passive") i (RNG.next r).2 hr
    obtain ⟨hlen, hstr, hspec⟩ := ih (i + 1)
      (StrategicAgent.init
        (if (RNG.next r).1 < 1 / 2 then "active" else "passive") i
        (RNG.next r).2).2 hr
    refine ⟨?_, ?_, ?_⟩
    · simp only [deploy_go, List.length_cons, hlen]
    · exact hstr
    · intro k hk
      match k with
      | 0 => exact hinit.1
      | Nat.succ k =>
        have hk' : k < (deploy_go (i + 1) fuel
            (StrategicAgent.init
              (if (RNG.next r).1 < 1 / 2 then "active" else "passive") i
              (RNG.next r).2).2).1.length := by
          have := hk
          simp only [deploy_go, List.length_cons] at this
          omega
        have hsp := hspec k hk'
        have hid : i + 1 + k = i + (k + 1) := by omega
        rw [hid] at hsp
        exact hsp

/-- C10: a battlefield of `n` agents starts with exactly `n` agents,
tick count 0, ids equal to their indices `0..n−1` (hence pairwise
distinct), powers in `[0.5, 1.5]` (hence at least 0.1), positions in
`[0, 10]²`, stance MANEUVER, and the zero vector — given unit-interval
raw draws. -/
theorem initial_state_invariants (n : ℕ) (r : RNG)
    (hr : ∀ j, 0 ≤ r.stream j ∧ r.stream j ≤ 1) :
    (Battlefield.init n r).1.agents.length = n ∧
    (Battlefield.init n r).1.time_step_count = 0 ∧
    ∀ k (hk : k < (Battlefield.init n r).1.agents.length),
      initial_agent_spec ((Battlefield.init n r).1.agents.get ⟨k, hk⟩) k ∧
      0.1 ≤ ((Battlefield.init n r).1.agents.get ⟨k, hk⟩).power := by
  obtain ⟨hlen, _, hspec⟩ := deploy_go_spec n 0 r hr
  refine ⟨hlen, rfl, fun k hk => ?_⟩
  have hsp := hspec k hk
  rw [Nat.zero_add] at hsp
  exact ⟨hsp, le_trans (by norm_num) hsp.2.1⟩

/-! ## Witnesses: each hypothesis-bearing theorem evaluated at a
concrete input -/

instance : Inhabited StrategicAgent := ⟨agA⟩

/-- The per-agent loop preserves the population size. -/
theorem agent_phase_length (sq : ℚ → ℚ) (τ : ℚ) :
    ∀ (todo done : List StrategicAgent) (r : RNG),
      (agent_phase sq τ done todo r).1.length = done.length + todo.length := by
  intro todo
  induction todo with
  | nil => intro done r; simp [agent_phase]
  | cons agent rest ih =>
    intro done r
    simp only [agent_phase, ih, List.length_append, List.length_cons,
      List.length_nil]
    omega

/-- The equilibrium correction preserves the population size. -/
theorem rebalance_length (l : List StrategicAgent) :
    (rebalance_strategic_equilibrium l).length = l.length := by
  simp only [rebalance_strategic_equilibrium]
  split_ifs <;> simp

/-- A tick never creates or destroys agents. -/
theorem time_step_agents_length (sq : ℚ → ℚ) (τ : ℚ) (b : Battlefield)
    (r : RNG) :
    (time_step sq τ b r).1.agents.length = b.agents.length := by
  simp only [time_step, rebalance_length, agent_phase_length,
    List.length_nil]
  omega

/-- C1 at a concrete one-agent battlefield and the all-zero draw
stream. -/
theorem tick_invariants_witness :
    tick_invariant ((time_step sq0 1 bf0 rng0).1.agents.head!) := by
  have hne : (time_step sq0 1 bf0 rng0).1.agents ≠ [] := by
    apply List.ne_nil_of_length_pos
    rw [time_step_agents_length]
    norm_num [bf0]
  exact tick_invariants sq0 1 bf0 rng0 _ (List.head!_mem_self hne)

/-- C2 at the spec's scenario: rival power 0.4 against own power 1,
threshold 1, threat level 0.4 < 1 → ATTACK. -/
theorem decide_threat_bands_witness :
    (StrategicAgent.decide sq0 1 agA (agB :: []) rng0).1.status = Status.attack :=
  (decide_threat_bands sq0 1 agA agB [] rng0 (by norm_num)).1
    (by norm_num [agA, agB])

/-- C3 at a concrete agent with no foes: MANEUVER decay 0.005. -/
theorem power_decay_per_tick_witness :
    (agent_update sq0 1 agA [] rng0).1.power = max 0.1 (agA.power - 0.005) :=
  (power_decay_per_tick sq0 1 agA [] rng0).2.2.1 rfl

/-- C4 at a one-agent population with total power 1 < 10: +0.03. -/
theorem equilibrium_correction_witness :
    (rebalance_strategic_equilibrium (agA :: [])).map (fun a => a.power) =
      (agA :: []).map (fun a => a.power + 0.03) :=
  (equilibrium_correction (agA :: [])).1 (by norm_num [agA])

/-- C7 with the identity as square root (vanishing exactly at 0) and a
nonzero direction. -/
theorem vector_policies_degenerate_norm_witness :
    safe_norm sqId (3, 4) ≠ 0 :=
  (vector_policies_degenerate_norm sqId (fun _ _ => Iff.rfl)).1 (3, 4)

/-- C8 at distance exactly 3.0: the agent at (3, 0) is not visible from
the origin. -/
theorem detect_in_radius_spec_witness :
    agB ∉ detect_in_radius (agB :: []) agA 3 :=
  (detect_in_radius_spec (agB :: []) agA agB).2.2
    (by norm_num [sq_dist, agA, agB])

/-- C9 between two separately defined but draw-identical random
sources. -/
theorem run_deterministic_witness :
    run_simulation sq0 1 2 bf0 rng0 = run_simulation sq0 1 2 bf0 rng1 :=
  run_deterministic sq0 1 2 bf0 bf0 rng0 rng1 rfl (fun _ => rfl) rfl

/-- C10 at a one-agent deployment from the all-zero draw stream. -/
theorem initial_state_invariants_witness :
    (Battlefield.init 1 rng0).1.agents.length = 1 :=
  (initial_state_invariants 1 rng0 (fun _ => ⟨le_refl 0, by norm_num [rng0]⟩)).1

end BattleSim
